import Mathlib

/-!
Verification of the response-decoding synthesis core of an OpenAPI code
generator (pkg/codegen/template_helpers.go).

The Go code is shallowly embedded: pure helpers become Lean functions,
Go panics become Except.error, and the one piece of shared mutable state
(the openapi3 Schema.Properties map reached through the pointer
Schema.OAPISchema, which Go's delete mutates in place) is modelled by
explicit state passing: functions that can mutate it also return the
post-call contents of that map.
-/

/-- JSON values, modelling what encoding/json produces when unmarshalling a
raw message into a map of interface values: objects become maps, arrays
become interface slices, strings stay strings, numbers become float64. -/
inductive JSONValue where
  | str (s : String)
  | num (n : Int)
  | bool (b : Bool)
  | arr (elems : List JSONValue)
  | obj (fields : List (String × JSONValue))
  | null

/-- Name printed by Go's %T verb for the dynamic type of an unmarshalled
JSON value held in an interface. -/
def goTypeName : JSONValue → String
  | .str _ => "string"
  | .num _ => "float64"
  | .bool _ => "bool"
  | .arr _ => "[]interface \x7b\x7d"
  | .obj _ => "map[string]interface \x7b\x7d"
  | .null => "<nil>"

mutual

/-- Schema models codegen.Schema: GoType is the generated type declaration
string (TypeDecl), Properties the ordered property list, oapiProperties the
key set of the openapi3 Schema.Properties map reachable through the
OAPISchema pointer (shared, mutable in Go), and path the schema path. -/
inductive Schema where
  | mk (goType : String) (properties : List Property)
       (oapiProperties : List String) (path : String)

/-- Property models codegen.Property: its JSON field name and its schema. -/
inductive Property where
  | mk (jsonFieldName : String) (schema : Schema)

end

/-- Generated Go type string of a schema (Schema.TypeDecl / Schema.GoType).
The body of TypeDecl lives outside the embedded file; the embedding carries
its result as the goType field. -/
def Schema.goType : Schema → String
  | .mk g _ _ _ => g

/-- Ordered property list of a schema. -/
def Schema.properties : Schema → List Property
  | .mk _ ps _ _ => ps

/-- Key set of the openapi3 Schema.Properties map shared through the
OAPISchema pointer. -/
def Schema.oapiProperties : Schema → List String
  | .mk _ _ o _ => o

/-- Schema path, passed to GenerateGoSchema on reduction. -/
def Schema.path : Schema → String
  | .mk _ _ _ p => p

/-- Replace the contents of the shared openapi3 property map of a schema,
leaving every other component unchanged.  Used to express the state of an
operation model after an in-place mutation of that map. -/
def Schema.setOapiProperties : Schema → List String → Schema
  | .mk g ps _ p, o => .mk g ps o p

/-- JSON field name of a property. -/
def Property.jsonFieldName : Property → String
  | .mk n _ => n

/-- Schema of a property. -/
def Property.schema : Property → Schema
  | .mk _ s => s

/-- Modelled from the spec: Property.GoTypeDef (defined outside the embedded
file) resolves a property to its own generated type; the spec calls this
"that single property's own type".  The embedding reads it off the
property's schema. -/
def Property.goTypeDef (p : Property) : String :=
  p.schema.goType

/-- TypeDefinition models codegen.TypeDefinition. -/
structure TypeDefinition where
  typeName : String
  jsonName : String
  schema : Schema

/-- ResponseTypeDefinition models codegen.ResponseTypeDefinition: a
TypeDefinition tagged with the response name and content type it came
from. -/
structure ResponseTypeDefinition extends TypeDefinition where
  responseName : String
  contentTypeName : String

/-- Declared content of one response: the key set of the openapi3
Content map (content-type strings). -/
structure ResponseValue where
  content : List String

/-- OperationDefinition models the slice of codegen.OperationDefinition the
helpers read: the operation id, the response type definitions produced by
GetResponseTypeDefinitions (that function lives outside the embedded file;
the spec's operation model supplies one ResponseTypeDefinition per
(response, content-type) pair), Spec.Responses as an association list from
response name to an optional response value (none models a nil
ResponseRef.Value), and the raw x-primary-response extension when present
as a json.RawMessage (none models both an absent key and a value that is
not a RawMessage, which the Go type assertion also turns into nil). -/
structure OperationDefinition where
  operationId : String
  typeDefinitions : List ResponseTypeDefinition
  responses : List (String × Option ResponseValue)
  primaryResponseExt : Option JSONValue

/-- Modelled from the spec: UppercaseFirstCharacter is the identifier
casing service (defined outside the embedded file) that uppercases the
first character of an identifier. -/
def UppercaseFirstCharacter (s : String) : String :=
  match s.data with
  | [] => ""
  | c :: cs => ⟨Char.toUpper c :: cs⟩

/-- Modelled from the spec: StringInArray (defined outside the embedded
file) tests membership of a string in a fixed list. -/
def StringInArray (s : String) (arr : List String) : Bool :=
  arr.contains s

/-- Case-statement sort-key prefix for the most specific tier. -/
def prefixMostSpecific : String := "3"

/-- Case-statement sort-key prefix for the less specific tier. -/
def prefixLessSpecific : String := "6"

/-- Case-statement sort-key prefix for the least specific tier. -/
def prefixLeastSpecific : String := "9"

/-- Content types decoded as JSON (echo.MIMEApplicationJSON and
text/x-json). -/
def contentTypesJSON : List String := ["application/json", "text/x-json"]

/-- Content types decoded as YAML. -/
def contentTypesYAML : List String :=
  ["application/yaml", "application/x-yaml", "text/yaml", "text/x-yaml"]

/-- Content types decoded as XML (echo.MIMEApplicationXML and
echo.MIMETextXML). -/
def contentTypesXML : List String := ["application/xml", "text/xml"]

/-- Suffix of generated response type names. -/
def responseTypeSuffix : String := "Response"

/-- Content-type family selected by the switch in genResponseUnmarshal. -/
inductive ContentFamily where
  | json
  | yaml
  | xml
  | unrecognized
deriving DecidableEq, Repr

/-- Classification performed by the switch in genResponseUnmarshal: the
branch conditions StringInArray(contentTypeName, contentTypesJSON / YAML /
XML) in their source order, with the default branch mapping everything else
to the unrecognized family. -/
def classifyContentType (contentTypeName : String) : ContentFamily :=
  if StringInArray contentTypeName contentTypesJSON then .json
  else if StringInArray contentTypeName contentTypesYAML then .yaml
  else if StringInArray contentTypeName contentTypesXML then .xml
  else .unrecognized

/-- Status-class wildcard response names handled by
getConditionOfResponseName. -/
def classPatterns : List String := ["1XX", "2XX", "3XX", "4XX", "5XX"]

/-- Embeds getConditionOfResponseName: the statusCode comparison clause for
a response name.  The Go expression responseName[:1] slices the first byte;
for the five ASCII class patterns this is the first character. -/
def getConditionOfResponseName (statusCodeVar responseName : String) : String :=
  if responseName = "default" then "true"
  else if responseName ∈ classPatterns then
    statusCodeVar ++ " / 100 == " ++ ⟨responseName.data.take 1⟩
  else
    statusCodeVar ++ " == " ++ responseName

/-- Embeds genResponseTypeName: the generated response type name for an
operation id. -/
def genResponseTypeName (operationID : String) : String :=
  UppercaseFirstCharacter operationID ++ responseTypeSuffix

/-- Default enveloped return type name computed at the top of
genReturnTypeName. -/
def defaultReturnTypeName (operationID : String) : String :=
  "*" ++ UppercaseFirstCharacter (genResponseTypeName operationID)

/-- Pair of Go string maps accumulated by genResponseUnmarshal: handled and
unhandled case clauses, each keyed by a sort key. -/
structure CaseMaps where
  handled : List (String × String)
  unhandled : List (String × String)

/-- Go map assignment m[k] = v on an association-list model of the map: the
key set gains k and the value stored at k becomes v (overwriting any
earlier value). -/
def mapSet (m : List (String × String)) (k v : String) : List (String × String) :=
  m.filter (fun p => p.1 != k) ++ [(k, v)]

/-- Go map read m[k]; only ever used at keys present in the map. -/
def mapGet (m : List (String × String)) (k : String) : String :=
  match m.find? (fun p => p.1 == k) with
  | some p => p.2
  | none => ""

/-- Key list of a map model. -/
def mapKeys (m : List (String × String)) : List String :=
  m.map (fun p => p.1)

/-- Lexicographic order on character lists by code point, the order Go's
sort.Strings induces on the ASCII strings in play (for ASCII, code-point
order and bytewise order agree). -/
def charListLeb : List Char → List Char → Bool
  | [], _ => true
  | _ :: _, [] => false
  | a :: as, b :: bs =>
      if a.toNat = b.toNat then charListLeb as bs
      else decide (a.toNat < b.toNat)

/-- String comparison used to model Go's sort.Strings on the generated
keys. -/
def stringLeb (a b : String) : Bool :=
  charListLeb a.data b.data

/-- Propositional form of stringLeb, the sort relation of the embedding. -/
def stringLe (a b : String) : Prop :=
  stringLeb a b = true

instance stringLeDecidable : DecidableRel stringLe :=
  fun a b => instDecidableEqBool (stringLeb a b) true

/-- Modelled from the spec: SortedStringKeys (defined outside the embedded
file) returns the map's keys sorted as Go's sort.Strings orders them. -/
def SortedStringKeys (m : List (String × String)) : List String :=
  List.insertionSort stringLe (mapKeys m)

/-- Modelled from the spec: SortedContentKeys (defined outside the embedded
file) returns the content-type keys of a response's Content map in sorted
order, the deterministic iteration the spec requires. -/
def SortedContentKeys (content : List String) : List String :=
  List.insertionSort stringLe content

/-- Body of the three decode case actions of genResponseUnmarshal, which
differ only in the codec package name (json, yaml, xml): declare dest with
the type declaration of the schema, unmarshal into it, and store it in the
response field named by the type definition. -/
def decodeCaseAction (codec : String) (td : ResponseTypeDefinition) : String :=
  "var dest " ++ td.schema.goType ++ "\n" ++
  "if err := " ++ codec ++ ".Unmarshal(bodyBytes, &dest); err != nil \x7b \n" ++
  " return nil, err \n" ++
  "\x7d\n" ++
  "response." ++ td.typeName ++ " = &dest"

/-- Embeds buildUnmarshalCase: sort key and case clause for one handled
content type.  contentType here is the codec tag json, yaml or xml, and
the emitted condition tests that the Content-Type header contains that tag
as a substring. -/
def buildUnmarshalCase (td : ResponseTypeDefinition) (caseAction : String)
    (contentType : String) : String × String :=
  let caseKey := prefixLeastSpecific ++ "." ++ contentType ++ "." ++ td.responseName
  let caseClauseKey := getConditionOfResponseName "rsp.StatusCode" td.responseName
  let caseClause := "case strings.Contains(rsp.Header.Get(\"Content-Type\"), \"" ++
    contentType ++ "\") && " ++ caseClauseKey ++ ":\n" ++ caseAction ++ "\n"
  (caseKey, caseClause)

/-- Case-clause label used for the unhandled stub entries of a response
name: the keyword case, the status condition, and a colon. -/
def unhandledCaseClauseKey (responseName : String) : String :=
  "case " ++ getConditionOfResponseName "rsp.StatusCode" responseName ++ ":"

/-- Sort key of an unhandled stub entry: the least-specific prefix followed
by the case-clause label; it depends only on the response name. -/
def unhandledCaseKey (responseName : String) : String :=
  prefixLeastSpecific ++ unhandledCaseClauseKey responseName

/-- Store an unhandled stub clause for a response name, as done for both
the no-content stub and the unsupported-content-type stub. -/
def addUnhandledStub (m : List (String × String)) (responseName caseAction : String) :
    List (String × String) :=
  mapSet m (unhandledCaseKey responseName)
    (unhandledCaseClauseKey responseName ++ "\n" ++ caseAction ++ "\n")

/-- Body of the content-type loop of genResponseUnmarshal for one type
definition and one content-type name: skip interface-typed definitions,
store a handled decode case when the content type classifies as JSON, YAML
or XML and matches the type definition's own content type, and store an
unsupported-content-type stub otherwise. -/
def processContentType (td : ResponseTypeDefinition) (maps : CaseMaps)
    (contentTypeName : String) : CaseMaps :=
  if td.typeName = "interface\x7b\x7d" then maps
  else
    match classifyContentType contentTypeName with
    | .json =>
        if td.contentTypeName = contentTypeName then
          let kc := buildUnmarshalCase td (decodeCaseAction "json" td) "json"
          { maps with handled := mapSet maps.handled kc.1 kc.2 }
        else maps
    | .yaml =>
        if td.contentTypeName = contentTypeName then
          let kc := buildUnmarshalCase td (decodeCaseAction "yaml" td) "yaml"
          { maps with handled := mapSet maps.handled kc.1 kc.2 }
        else maps
    | .xml =>
        if td.contentTypeName = contentTypeName then
          let kc := buildUnmarshalCase td (decodeCaseAction "xml" td) "xml"
          { maps with handled := mapSet maps.handled kc.1 kc.2 }
        else maps
    | .unrecognized =>
        let caseAction := "// Content-type (" ++ contentTypeName ++ ") unsupported"
        { maps with unhandled := addUnhandledStub maps.unhandled td.responseName caseAction }

/-- Look up a response by name in Spec.Responses; the outer option models
the map membership test, the inner one a nil ResponseRef.Value. -/
def lookupResponse (responses : List (String × Option ResponseValue)) (name : String) :
    Option (Option ResponseValue) :=
  (responses.find? (fun p => p.1 == name)).map (fun p => p.2)

/-- Body of the outer loop of genResponseUnmarshal for one response type
definition: skip names missing from Spec.Responses and nil response values
(the nil case also writes a warning to stderr, not modelled), store a
no-content stub when the response declares no content, and otherwise run
the content-type loop over the sorted content keys. -/
def processTypeDefinition (responses : List (String × Option ResponseValue))
    (maps : CaseMaps) (td : ResponseTypeDefinition) : CaseMaps :=
  match lookupResponse responses td.responseName with
  | none => maps
  | some none => maps
  | some (some rv) =>
      if rv.content.length = 0 then
        let u := addUnhandledStub maps.unhandled td.responseName "break // No content-type"
        { maps with unhandled := u }
      else
        (SortedContentKeys rv.content).foldl (processContentType td) maps

/-- Case maps accumulated by genResponseUnmarshal over all response type
definitions of an operation. -/
def buildCaseMaps (op : OperationDefinition) : CaseMaps :=
  op.typeDefinitions.foldl (processTypeDefinition op.responses) ⟨[], []⟩

/-- Clauses of one case map in emission order: values read back at the
sorted keys. -/
def sortedClauses (m : List (String × String)) : List String :=
  (SortedStringKeys m).map (fun k => mapGet m k)

/-- Dispatch sequence of an operation in emission order: every handled
clause in sorted-key order, then every unhandled clause in sorted-key
order, exactly as the two output loops of genResponseUnmarshal emit
them. -/
def orderedCaseClauses (op : OperationDefinition) : List String :=
  sortedClauses (buildCaseMaps op).handled ++ sortedClauses (buildCaseMaps op).unhandled

/-- Embeds genResponseUnmarshal: the generated switch statement.  The
operation model carries the result of GetResponseTypeDefinitions (that
function lives outside the embedded file; its error path aborts
generation and is not modelled). -/
def genResponseUnmarshal (op : OperationDefinition) : String :=
  if op.typeDefinitions.length = 0 then ""
  else
    let maps := buildCaseMaps op
    if maps.handled.length + maps.unhandled.length = 0 then ""
    else
      "switch \x7b\n" ++
      String.join ((sortedClauses maps.handled).map (fun c => c ++ "\n")) ++
      String.join ((sortedClauses maps.unhandled).map (fun c => c ++ "\n")) ++
      "\x7d\n"

/-- Parsed x-primary-response directive (primaryResponseInfo). -/
structure PrimaryResponseInfo where
  statusCode : String
  contentType : String
  metadataProperties : List String
deriving DecidableEq, Repr

/-- Lookup of a key in an unmarshalled JSON object. -/
def jsonObjLookup (fields : List (String × JSONValue)) (k : String) : Option JSONValue :=
  (fields.find? (fun p => p.1 == k)).map (fun p => p.2)

/-- JSON value kind word used by encoding/json in unmarshal type errors. -/
def jsonKindName : JSONValue → String
  | .str _ => "string"
  | .num _ => "number"
  | .bool _ => "bool"
  | .arr _ => "array"
  | .obj _ => "object"
  | .null => "null"

/-- Modelled from the spec: the malformed-shape error produced when
json.Unmarshal cannot decode the raw extension into a string-keyed map;
the text is the UnmarshalTypeError message of encoding/json, a library
outside this repository. -/
def msgUnmarshalTypeError (v : JSONValue) : String :=
  "json: cannot unmarshal " ++ jsonKindName v ++
    " into Go value of type map[string]interface \x7b\x7d"

/-- Message of the missing-required-key panics of getPrimaryResponseInfo. -/
def msgNoKey (field : String) : String :=
  "no " ++ field ++ " key in x-primary-response"

/-- Message of the wrong-value-type panics of getPrimaryResponseInfo for
the two string fields. -/
def msgExpectedString (field : String) (v : JSONValue) : String :=
  "expected string for " ++ field ++ " in x-primary-response, got " ++ goTypeName v

/-- Message of the wrong-value-type panic for metadata-properties. -/
def msgExpectedArray (v : JSONValue) : String :=
  "expected []interface\x7b\x7d for " ++ "metadata-properties" ++
    " in x-primary-response, got " ++ goTypeName v

/-- Message of the wrong-element-type panic inside the metadata-properties
loop. -/
def msgExpectedStringElem (i : Nat) (v : JSONValue) : String :=
  "expected string for " ++ "metadata-properties" ++ " element " ++ toString i ++
    ", got " ++ goTypeName v

/-- Message of the panic in getPrimaryResponseTypeDefinition when the
directive matches no response type definition. -/
def msgNoMatch : String := "no match found for primary response"

/-- Loop of getPrimaryResponseInfo over the metadata-properties elements:
collect the strings in order and abort on the first element that is not a
string, with its index in the message. -/
def parseMetadataProps : List JSONValue → Nat → Except String (List String)
  | [], _ => .ok []
  | .str s :: rest, i => (parseMetadataProps rest (i + 1)).map (fun l => s :: l)
  | v :: _, i => .error (msgExpectedStringElem i v)

/-- Body of getPrimaryResponseInfo once the raw extension has been
unmarshalled into a string-keyed map: require a status-code string, require
a content-type string, and accept an optional metadata-properties array of
strings; every shape violation aborts with the panic message of the source
(Except.error embeds the panic). -/
def parsePrimaryResponseObj (m : List (String × JSONValue)) :
    Except String (Option PrimaryResponseInfo) :=
  match jsonObjLookup m "status-code" with
  | none => .error (msgNoKey "status-code")
  | some (.str sc) =>
      match jsonObjLookup m "content-type" with
      | none => .error (msgNoKey "content-type")
      | some (.str ct) =>
          match jsonObjLookup m "metadata-properties" with
          | none => .ok (some ⟨sc, ct, []⟩)
          | some (.arr props) =>
              match parseMetadataProps props 0 with
              | .error e => .error e
              | .ok l => .ok (some ⟨sc, ct, l⟩)
          | some v => .error (msgExpectedArray v)
      | some v => .error (msgExpectedString "content-type" v)
  | some v => .error (msgExpectedString "status-code" v)

/-- Embeds getPrimaryResponseInfo: absent extension (or one that is not a
raw message) yields none without error; a raw message that is not a JSON
object fails json.Unmarshal and panics with the library error (a JSON null
unmarshals into a nil map, so the key lookups then fail as on an empty
object); otherwise the object is parsed field by field. -/
def getPrimaryResponseInfo (op : OperationDefinition) :
    Except String (Option PrimaryResponseInfo) :=
  match op.primaryResponseExt with
  | none => .ok none
  | some (.obj fields) => parsePrimaryResponseObj fields
  | some .null => parsePrimaryResponseObj []
  | some v => .error (msgUnmarshalTypeError v)

/-- Embeds stringSliceContains. -/
def stringSliceContains (haystack : List String) (needle : String) : Bool :=
  haystack.contains needle

/-- Embeds getPrimaryResponseTypeDefinition: resolve the parsed directive
against the operation's response type definitions, returning the first one
whose response name and content type both match, and panicking when the
directive matches none. -/
def getPrimaryResponseTypeDefinition (op : OperationDefinition) :
    Except String (Option ResponseTypeDefinition) :=
  match getPrimaryResponseInfo op with
  | .error e => .error e
  | .ok none => .ok none
  | .ok (some info) =>
      match op.typeDefinitions.find?
          (fun td => td.responseName == info.statusCode &&
            td.contentTypeName == info.contentType) with
      | some td => .ok (some td)
      | none => .error msgNoMatch

/-- Loop of getSingleNonMetadataProperty, carrying whether the Go ret
pointer is non-nil: properties named in metadataProperties are skipped,
the first candidate sets ret to the address of the range loop variable,
and a second candidate returns nil immediately (folded into the false
result, which the caller cannot tell apart from finishing with ret still
nil). -/
def singleNonMetadataLoop (metadataProperties : List String) :
    List Property → Bool → Bool
  | [], retSet => retSet
  | prop :: rest, retSet =>
      if stringSliceContains metadataProperties prop.jsonFieldName then
        singleNonMetadataLoop metadataProperties rest retSet
      else if retSet then
        false
      else
        singleNonMetadataLoop metadataProperties rest true

/-- Embeds getSingleNonMetadataProperty.  The Go function assigns
ret = &prop inside for _, prop := range td.Schema.Properties; in this
pre-Go-1.22 module the range variable prop is one variable reused by every
iteration, so a non-nil ret points at the value prop held when the loop
finished: the last property of the list, not the remembered candidate.
The pointer is non-nil exactly when one property lies outside the
metadata set, and every caller dereferences it right after the call, so
the embedding returns the last property in that case. -/
def getSingleNonMetadataProperty (td : TypeDefinition) (info : PrimaryResponseInfo) :
    Option Property :=
  if singleNonMetadataLoop info.metadataProperties td.schema.properties false then
    td.schema.properties.getLast?
  else
    none

/-- Embeds isFlatTypeDefinition. -/
def isFlatTypeDefinition (td : TypeDefinition) : Bool :=
  td.schema.properties.length == 0

/-- Modelled from the spec: GenerateGoSchema (defined outside the embedded
file) is the schema reduction service that regenerates a fresh Go schema
for an openapi3 schema whose property map has been reduced.  The embedding
makes it a total deterministic function of the reduced property key set
and the schema path; its generated property list and its failure path are
not modelled (no claim depends on them). -/
def GenerateGoSchema (oapiProperties : List String) (path : String) : Schema :=
  Schema.mk ("generated " ++ path) [] oapiProperties path

/-- Embeds asReducedTypeDefinition.  The Go function receives the
ResponseTypeDefinition by value, but td.Schema.OAPISchema is a pointer and
its Properties field is a Go map (a reference value), so the delete loop in
the non-flattened branch mutates the property map shared with the caller's
original schema.  The embedding returns the resulting TypeDefinition
together with the post-call contents of that shared map: the first branch
leaves it untouched, the second removes every key named in
metadataProperties. -/
def asReducedTypeDefinition (td : ResponseTypeDefinition) (info : PrimaryResponseInfo) :
    TypeDefinition × List String :=
  match getSingleNonMetadataProperty td.toTypeDefinition info with
  | some prop =>
      (⟨Property.jsonFieldName prop, Property.jsonFieldName prop, Property.schema prop⟩,
        td.schema.oapiProperties)
  | none =>
      let osc := td.schema.oapiProperties.filter
        (fun propName => !(stringSliceContains info.metadataProperties propName))
      (⟨td.typeName, td.jsonName, GenerateGoSchema osc td.schema.path⟩, osc)

/-- Embeds genReturnTypeName: the default enveloped name when no primary
response is designated, the single non-metadata property's own type when
flattening applies, and the default name otherwise.  The branch returning
an error for an absent info under a present type definition models the nil
dereference Go would hit there; it is unreachable because the type
definition is only returned when the info exists. -/
def genReturnTypeName (op : OperationDefinition) : Except String String :=
  match getPrimaryResponseTypeDefinition op with
  | .error e => .error e
  | .ok none => .ok (defaultReturnTypeName op.operationId)
  | .ok (some td) =>
      match getPrimaryResponseInfo op with
      | .error e => .error e
      | .ok none => .error "runtime error: invalid memory address or nil pointer dereference"
      | .ok (some info) =>
          match getSingleNonMetadataProperty td.toTypeDefinition info with
          | none => .ok (defaultReturnTypeName op.operationId)
          | some prop => .ok (Property.goTypeDef prop)

/-- Replace the shared openapi3 property-map contents of a response type
definition. -/
def ResponseTypeDefinition.setOapiProperties (td : ResponseTypeDefinition)
    (o : List String) : ResponseTypeDefinition :=
  { td with schema := td.schema.setOapiProperties o }

/-- State of an operation model after its shared openapi3 property maps
have been rewritten: each response type definition's map contents are
replaced by F of that definition.  Quantifying over F covers every pattern
of in-place map mutation a previous run can have performed. -/
def OperationDefinition.mapOapiProperties (op : OperationDefinition)
    (F : ResponseTypeDefinition → List String) : OperationDefinition :=
  { op with typeDefinitions :=
      op.typeDefinitions.map (fun td => td.setOapiProperties (F td)) }

/-- Properties of a type definition lying outside the directive's metadata
set; the spec's flattening condition counts these. -/
def nonMetadataProperties (td : TypeDefinition) (info : PrimaryResponseInfo) :
    List Property :=
  td.schema.properties.filter
    (fun q => !(stringSliceContains info.metadataProperties (Property.jsonFieldName q)))

/-- Substring containment on strings, used to state what an error message
reports. -/
def containsSubstr (s sub : String) : Prop :=
  sub.data <:+: s.data

instance containsSubstrDecidable (s sub : String) : Decidable (containsSubstr s sub) :=
  List.decidableInfix sub.data s.data

/-- Schema with no properties, for responses whose type plays no role. -/
def emptySchema : Schema := Schema.mk "X" [] [] ""

/-- Response type definition for an exact status 404 with no content. -/
def tdNoContent404 : ResponseTypeDefinition :=
  { typeName := "X", jsonName := "x", schema := emptySchema,
    responseName := "404", contentTypeName := "" }

/-- Response type definition for the class wildcard 4XX with no content. -/
def tdNoContent4XX : ResponseTypeDefinition :=
  { typeName := "X", jsonName := "x", schema := emptySchema,
    responseName := "4XX", contentTypeName := "" }

/-- Response type definition for the default response with no content. -/
def tdNoContentDefault : ResponseTypeDefinition :=
  { typeName := "X", jsonName := "x", schema := emptySchema,
    responseName := "default", contentTypeName := "" }

/-- Response type definition for a JSON 200 response. -/
def tdJson200 : ResponseTypeDefinition :=
  { typeName := "A200", jsonName := "a200", schema := Schema.mk "TA" [] [] "",
    responseName := "200", contentTypeName := "application/json" }

/-- Operation declaring an exact 404 and a class wildcard 4XX, both without
content: the input at which the claimed exact-before-wildcard emission
order fails. -/
def opExactVsClass : OperationDefinition :=
  { operationId := "op1", typeDefinitions := [tdNoContent404, tdNoContent4XX],
    responses := [("404", some ⟨[]⟩), ("4XX", some ⟨[]⟩)],
    primaryResponseExt := none }

/-- Operation with a handled JSON 200 case and unhandled 404, 4XX and
default cases, exercising every part of the emission-order theorem. -/
def opAllTiers : OperationDefinition :=
  { operationId := "op2",
    typeDefinitions := [tdJson200, tdNoContent404, tdNoContent4XX, tdNoContentDefault],
    responses := [("200", some ⟨["application/json"]⟩), ("404", some ⟨[]⟩),
      ("4XX", some ⟨[]⟩), ("default", some ⟨[]⟩)],
    primaryResponseExt := none }

/-- Property named ok of boolean type. -/
def propertyOk : Property := Property.mk "ok" (Schema.mk "bool" [] [] "")

/-- Property named tests of slice type. -/
def propertyTests : Property := Property.mk "tests" (Schema.mk "[]Test" [] [] "")

/-- Schema with the two properties ok and tests, mirrored in its shared
openapi3 property map. -/
def schemaOkTests : Schema :=
  Schema.mk "OkTests" [propertyOk, propertyTests] ["ok", "tests"] "p"

/-- XML 200 response type definition over schemaOkTests. -/
def tdXml200 : ResponseTypeDefinition :=
  { typeName := "XML200", jsonName := "xml200", schema := schemaOkTests,
    responseName := "200", contentTypeName := "application/xml" }

/-- Schema with the same two properties in the opposite order, tests
before ok, so the single non-metadata candidate is not the last
property. -/
def schemaTestsOk : Schema :=
  Schema.mk "OkTests" [propertyTests, propertyOk] ["ok", "tests"] "p"

/-- XML 200 response type definition over schemaTestsOk. -/
def tdXml200TestsFirst : ResponseTypeDefinition :=
  { typeName := "XML200", jsonName := "xml200", schema := schemaTestsOk,
    responseName := "200", contentTypeName := "application/xml" }

/-- Directive designating the XML 200 response with ok marked as
metadata. -/
def extOkMetadata : JSONValue :=
  .obj [("status-code", .str "200"), ("content-type", .str "application/xml"),
    ("metadata-properties", .arr [.str "ok"])]

/-- Directive designating the XML 200 response with no metadata
properties. -/
def extNoMetadata : JSONValue :=
  .obj [("status-code", .str "200"), ("content-type", .str "application/xml")]

/-- Operation whose primary response flattens to the tests property. -/
def opFlatten : OperationDefinition :=
  { operationId := "getTestByName", typeDefinitions := [tdXml200],
    responses := [("200", some ⟨["application/xml"]⟩)],
    primaryResponseExt := some extOkMetadata }

/-- Operation whose primary response keeps both properties and therefore
does not flatten. -/
def opNoFlatten : OperationDefinition :=
  { operationId := "getTestByName", typeDefinitions := [tdXml200],
    responses := [("200", some ⟨["application/xml"]⟩)],
    primaryResponseExt := some extNoMetadata }

/-- Operation like opFlatten but with the property order tests, ok: the
input at which the loop-variable aliasing makes the flattened return type
wrong. -/
def opFlattenTestsFirst : OperationDefinition :=
  { operationId := "getTestByName", typeDefinitions := [tdXml200TestsFirst],
    responses := [("200", some ⟨["application/xml"]⟩)],
    primaryResponseExt := some extOkMetadata }

/-- Parsed directive with ok as the only metadata property. -/
def infoOkMetadata : PrimaryResponseInfo :=
  ⟨"200", "application/xml", ["ok"]⟩

/-- Parsed directive marking both properties of schemaOkTests as
metadata, so that flattening fails and the purge loop runs. -/
def infoAllMetadata : PrimaryResponseInfo :=
  ⟨"200", "application/xml", ["ok", "tests"]⟩

/-- Operation whose directive names a response the operation does not
declare. -/
def opMissingMatch : OperationDefinition :=
  { operationId := "findPets", typeDefinitions := [tdJson200],
    responses := [("200", some ⟨["application/json"]⟩)],
    primaryResponseExt := some (.obj [("status-code", .str "404"),
      ("content-type", .str "application/json")]) }

/-- Operation with no x-primary-response extension. -/
def opNoDirective : OperationDefinition :=
  { operationId := "findPets", typeDefinitions := [tdJson200],
    responses := [("200", some ⟨["application/json"]⟩)],
    primaryResponseExt := none }

/-- Operation whose directive is an object missing the status-code key. -/
def opMissingStatusCode : OperationDefinition :=
  { operationId := "findPets", typeDefinitions := [],
    responses := [], primaryResponseExt := some (.obj []) }

/-- Response type definition for a 200 response declaring a content type
outside every recognised family. -/
def tdOctet200 : ResponseTypeDefinition :=
  { typeName := "Foo", jsonName := "foo", schema := emptySchema,
    responseName := "200", contentTypeName := "application/octet-stream" }

/-- Operation whose single response declares two unrecognised content
types; their stubs share one map key, so only the one inserted last (in
sorted content-type order) survives. -/
def opTwoUnrecognized : OperationDefinition :=
  { operationId := "op10", typeDefinitions := [tdOctet200],
    responses := [("200", some ⟨["application/pdf", "application/octet-stream"]⟩)],
    primaryResponseExt := none }

/-- Operation whose single 200 response declares no content at all. -/
def opNoContent200 : OperationDefinition :=
  { operationId := "op10b", typeDefinitions := [tdOctet200],
    responses := [("200", some ⟨[]⟩)],
    primaryResponseExt := none }

theorem charListLeb_refl : ∀ l, charListLeb l l = true
  | [] => rfl
  | _ :: as => by simp [charListLeb, charListLeb_refl as]

theorem charListLeb_total : ∀ as bs, charListLeb as bs = true ∨ charListLeb bs as = true
  | [], _ => .inl rfl
  | _ :: _, [] => .inr rfl
  | a :: as, b :: bs => by
      by_cases h : a.toNat = b.toNat
      · rcases charListLeb_total as bs with ih | ih
        · left; simp [charListLeb, h, ih]
        · right; simp [charListLeb, h.symm, ih]
      · rcases Nat.lt_or_ge a.toNat b.toNat with hlt | hge
        · left; simp [charListLeb, h, hlt]
        · have hba : b.toNat < a.toNat := lt_of_le_of_ne hge (Ne.symm h)
          right; simp [charListLeb, Ne.symm h, hba]

theorem charListLeb_trans :
    ∀ as bs cs, charListLeb as bs = true → charListLeb bs cs = true →
      charListLeb as cs = true
  | [], _, _, _, _ => rfl
  | _ :: _, [], _, h, _ => by simp [charListLeb] at h
  | _ :: _, _ :: _, [], _, h2 => by simp [charListLeb] at h2
  | a :: as, b :: bs, c :: cs, h1, h2 => by
      simp only [charListLeb] at h1 h2 ⊢
      by_cases hab : a.toNat = b.toNat <;> by_cases hbc : b.toNat = c.toNat
      · rw [if_pos hab] at h1
        rw [if_pos hbc] at h2
        rw [if_pos (hab.trans hbc)]
        exact charListLeb_trans as bs cs h1 h2
      · rw [if_pos hab] at h1
        rw [if_neg hbc] at h2
        have hac : a.toNat ≠ c.toNat := hab ▸ hbc
        rw [if_neg hac]
        rw [hab]
        exact h2
      · rw [if_neg hab] at h1
        rw [if_pos hbc] at h2
        have hac : a.toNat ≠ c.toNat := fun e => hab (hbc ▸ e)
        rw [if_neg hac]
        rw [← hbc]
        exact h1
      · rw [if_neg hab] at h1
        rw [if_neg hbc] at h2
        have hlt : a.toNat < c.toNat :=
          Nat.lt_trans (of_decide_eq_true h1) (of_decide_eq_true h2)
        by_cases hac : a.toNat = c.toNat
        · omega
        · rw [if_neg hac]
          simpa using hlt

instance stringLeIsTotal : IsTotal String stringLe :=
  ⟨fun a b => charListLeb_total a.data b.data⟩

instance stringLeIsTrans : IsTrans String stringLe :=
  ⟨fun a b c => charListLeb_trans a.data b.data c.data⟩

theorem stringLeb_refl (a : String) : stringLeb a a = true :=
  charListLeb_refl a.data

/-- In a list sorted by the embedding's key order, an element strictly
below another occurs before it: the two-element list is a sublist. -/
theorem sorted_pair_sublist {l : List String} (hs : l.Sorted stringLe) {a b : String}
    (ha : a ∈ l) (hb : b ∈ l) (hlt : stringLeb b a = false) : [a, b].Sublist l := by
  induction l with
  | nil => cases ha
  | cons x xs ih =>
      rw [List.sorted_cons] at hs
      by_cases hax : a = x
      · subst hax
        have hba : b ≠ a := by
          intro e
          rw [e, stringLeb_refl] at hlt
          cases hlt
        have hbxs : b ∈ xs := by
          rcases List.mem_cons.mp hb with e | m
          · exact absurd e hba
          · exact m
        exact List.Sublist.cons₂ a (List.singleton_sublist.mpr hbxs)
      · have haxs : a ∈ xs := by
          rcases List.mem_cons.mp ha with e | m
          · exact absurd e hax
          · exact m
        have hbxs : b ∈ xs := by
          rcases List.mem_cons.mp hb with e | m
          · exfalso
            have : stringLe x a := hs.1 a haxs
            rw [← e] at this
            rw [stringLe] at this
            rw [this] at hlt
            cases hlt
          · exact m
        exact List.Sublist.cons x (ih hs.2 haxs hbxs)

theorem stringInArray_iff (s : String) (l : List String) :
    StringInArray s l = true ↔ s ∈ l := by
  simp [StringInArray]

/-- C7: content-type classification is total over strings: exactly
application/json and text/x-json classify as JSON, exactly the four YAML
strings as YAML, exactly application/xml and text/xml as XML, and every
other string falls to the unrecognized family that produces the
unsupported stub case rather than an error. -/
theorem claim_c7_content_type_classification (s : String) :
    (classifyContentType s = .json ↔ (s = "application/json" ∨ s = "text/x-json"))
    ∧ (classifyContentType s = .yaml ↔
        (s = "application/yaml" ∨ s = "application/x-yaml" ∨ s = "text/yaml" ∨ s = "text/x-yaml"))
    ∧ (classifyContentType s = .xml ↔ (s = "application/xml" ∨ s = "text/xml"))
    ∧ (s ∉ contentTypesJSON → s ∉ contentTypesYAML → s ∉ contentTypesXML →
        classifyContentType s = .unrecognized) := by
  unfold classifyContentType
  by_cases h1 : s ∈ contentTypesJSON
  · rw [if_pos ((stringInArray_iff s _).mpr h1)]
    simp only [contentTypesJSON, contentTypesYAML, contentTypesXML] at h1 ⊢
    simp at h1
    rcases h1 with rfl | rfl <;> simp
  · rw [if_neg (by rw [stringInArray_iff]; exact h1)]
    by_cases h2 : s ∈ contentTypesYAML
    · rw [if_pos ((stringInArray_iff s _).mpr h2)]
      simp only [contentTypesJSON, contentTypesYAML, contentTypesXML] at h1 h2 ⊢
      simp at h1 h2
      rcases h2 with rfl | rfl | rfl | rfl <;> simp
    · rw [if_neg (by rw [stringInArray_iff]; exact h2)]
      by_cases h3 : s ∈ contentTypesXML
      · rw [if_pos ((stringInArray_iff s _).mpr h3)]
        simp only [contentTypesJSON, contentTypesYAML, contentTypesXML] at h1 h2 h3 ⊢
        simp at h1 h2 h3
        push_neg at h1 h2
        rcases h3 with rfl | rfl <;> simp_all
      · rw [if_neg (by rw [stringInArray_iff]; exact h3)]
        simp only [contentTypesJSON, contentTypesYAML, contentTypesXML] at h1 h2 h3
        simp at h1 h2 h3
        push_neg at h1 h2 h3
        simp_all

/-- C7 witness: the classification at representative concrete strings. -/
theorem claim_c7_witness :
    classifyContentType "application/json" = .json
    ∧ classifyContentType "text/yaml" = .yaml
    ∧ classifyContentType "text/xml" = .xml
    ∧ classifyContentType "application/octet-stream" = .unrecognized := by
  refine ⟨?_, ?_, ?_, ?_⟩
  · exact (claim_c7_content_type_classification "application/json").1.mpr (Or.inl rfl)
  · exact (claim_c7_content_type_classification "text/yaml").2.1.mpr (by tauto)
  · exact (claim_c7_content_type_classification "text/xml").2.2.1.mpr (Or.inr rfl)
  · exact (claim_c7_content_type_classification "application/octet-stream").2.2.2
      (by decide) (by decide) (by decide)

/-- C8: the status condition is the catch-all true for default, the
status-class division test for the five wildcard patterns, and the exact
equality test for every other response name. -/
theorem claim_c8_status_conditions (statusVar : String) :
    getConditionOfResponseName statusVar "default" = "true"
    ∧ (∀ d : Nat, 1 ≤ d → d ≤ 5 →
        getConditionOfResponseName statusVar (toString d ++ "XX") =
          statusVar ++ " / 100 == " ++ toString d)
    ∧ ∀ p : String, p ≠ "default" → p ∉ classPatterns →
        getConditionOfResponseName statusVar p = statusVar ++ " == " ++ p := by
  refine ⟨by simp [getConditionOfResponseName], ?_, ?_⟩
  · intro d h1 h2
    interval_cases d <;> rfl
  · intro p h1 h2
    simp [getConditionOfResponseName, h1, h2]

/-- C8 witness: the three condition shapes at concrete inputs. -/
theorem claim_c8_witness :
    getConditionOfResponseName "rsp.StatusCode" "default" = "true"
    ∧ getConditionOfResponseName "rsp.StatusCode" "4XX" = "rsp.StatusCode / 100 == 4"
    ∧ getConditionOfResponseName "rsp.StatusCode" "404" = "rsp.StatusCode == 404" := by
  refine ⟨(claim_c8_status_conditions "rsp.StatusCode").1, ?_, ?_⟩
  · exact (claim_c8_status_conditions "rsp.StatusCode").2.1 4 (by decide) (by decide)
  · exact (claim_c8_status_conditions "rsp.StatusCode").2.2 "404" (by decide) (by decide)

/-- C6: an operation without the x-primary-response extension resolves the
directive to absent without error, and its return type is the default
enveloped response type name. -/
theorem claim_c6_absent_directive (op : OperationDefinition)
    (h : op.primaryResponseExt = none) :
    getPrimaryResponseInfo op = .ok none
    ∧ genReturnTypeName op = .ok (defaultReturnTypeName op.operationId) := by
  have h1 : getPrimaryResponseInfo op = .ok none := by
    unfold getPrimaryResponseInfo
    rw [h]
  have h2 : getPrimaryResponseTypeDefinition op = .ok none := by
    unfold getPrimaryResponseTypeDefinition
    rw [h1]
  refine ⟨h1, ?_⟩
  unfold genReturnTypeName
  rw [h2]

/-- C6 witness: the absent-directive behaviour at a concrete operation. -/
theorem claim_c6_witness :
    getPrimaryResponseInfo opNoDirective = .ok none
    ∧ genReturnTypeName opNoDirective = .ok (defaultReturnTypeName "findPets") :=
  claim_c6_absent_directive opNoDirective rfl

/-- C5: a directive whose status code and content type match no response
type definition of the operation is a fatal error: resolution aborts with
the no-match panic rather than returning an absent result. -/
theorem claim_c5_missing_match (op : OperationDefinition) (info : PrimaryResponseInfo)
    (h1 : getPrimaryResponseInfo op = .ok (some info))
    (h2 : ∀ td ∈ op.typeDefinitions,
      ¬(td.responseName = info.statusCode ∧ td.contentTypeName = info.contentType)) :
    getPrimaryResponseTypeDefinition op = .error msgNoMatch := by
  unfold getPrimaryResponseTypeDefinition
  simp only [h1]
  have hf : op.typeDefinitions.find?
      (fun td => td.responseName == info.statusCode &&
        td.contentTypeName == info.contentType) = none := by
    rw [List.find?_eq_none]
    intro td htd
    have h3 := h2 td htd
    simp only [Bool.and_eq_true, beq_iff_eq]
    intro h4
    exact h3 h4
  simp only [hf]

/-- C5 witness: a directive naming 404 when only 200 is declared panics
with the no-match message. -/
theorem claim_c5_witness :
    getPrimaryResponseTypeDefinition opMissingMatch = .error msgNoMatch :=
  claim_c5_missing_match opMissingMatch ⟨"404", "application/json", []⟩ rfl
    (by
      intro td htd
      simp only [opMissingMatch, List.mem_singleton] at htd
      subst htd
      intro hc
      exact absurd hc.1 (by decide))

theorem singleNonMetadataLoop_true (meta : List String) :
    ∀ props : List Property,
      singleNonMetadataLoop meta props true =
        (props.filter
          (fun q => !(stringSliceContains meta (Property.jsonFieldName q)))).isEmpty
  | [] => rfl
  | prop :: rest => by
      by_cases h : stringSliceContains meta (Property.jsonFieldName prop)
      · rw [singleNonMetadataLoop]
        simp only [h, if_true]
        rw [singleNonMetadataLoop_true meta rest]
        simp [List.filter_cons, h]
      · rw [singleNonMetadataLoop]
        simp [List.filter_cons, h]

theorem singleNonMetadataLoop_false (meta : List String) :
    ∀ props : List Property,
      singleNonMetadataLoop meta props false =
        ((props.filter
          (fun q => !(stringSliceContains meta (Property.jsonFieldName q)))).length == 1)
  | [] => rfl
  | prop :: rest => by
      by_cases h : stringSliceContains meta (Property.jsonFieldName prop)
      · rw [singleNonMetadataLoop]
        simp only [h, if_true]
        rw [singleNonMetadataLoop_false meta rest]
        simp [List.filter_cons, h]
      · rw [singleNonMetadataLoop]
        simp only [h, if_false, Bool.false_eq_true]
        rw [singleNonMetadataLoop_true meta rest]
        simp only [List.filter_cons, h, Bool.not_false, if_true]
        cases hf : rest.filter
            (fun q => !(stringSliceContains meta (Property.jsonFieldName q))) with
        | nil => simp
        | cons q qs => simp

theorem getSingleNonMetadataProperty_eq (td : TypeDefinition) (info : PrimaryResponseInfo) :
    getSingleNonMetadataProperty td info =
      if (nonMetadataProperties td info).length = 1 then td.schema.properties.getLast?
      else none := by
  unfold getSingleNonMetadataProperty nonMetadataProperties
  rw [singleNonMetadataLoop_false]
  by_cases h : (td.schema.properties.filter
      (fun q => !(stringSliceContains info.metadataProperties (Property.jsonFieldName q)))).length = 1
  · rw [if_pos h, if_pos (by simpa using h)]
  · rw [if_neg h, if_neg (by simpa using h)]

/-- C2: the claim fails on the code.  With properties tests, ok (in that
order) and ok marked as metadata, exactly one property (tests) lies
outside the metadata set, yet genReturnTypeName returns the type of ok,
because getSingleNonMetadataProperty returns a pointer to the reused
range-loop variable, which after the loop holds the last property rather
than the single candidate.  When the candidate happens to be the last
property (order ok, tests) the code agrees with the claim, and with zero
or several candidates the default enveloped name is kept as claimed. -/
theorem claim_c2_loop_aliasing :
    nonMetadataProperties tdXml200TestsFirst.toTypeDefinition infoOkMetadata =
      [propertyTests]
    ∧ Property.goTypeDef propertyTests = "[]Test"
    ∧ genReturnTypeName opFlattenTestsFirst = .ok "bool"
    ∧ genReturnTypeName opFlatten = .ok "[]Test"
    ∧ genReturnTypeName opNoFlatten = .ok "*GetTestByNameResponse" :=
  ⟨rfl, rfl, rfl, rfl, rfl⟩

/-- C3 evaluation: before the call the shared openapi3 property map of the
declared schema holds ok and tests; the non-flattened branch of
asReducedTypeDefinition deletes the metadata-marked keys from that shared
map in place, so after the call the map the input schema points to is
empty, not equal to its pre-call contents. -/
theorem claim_c3_counterexample :
    tdXml200.schema.oapiProperties = ["ok", "tests"]
    ∧ (asReducedTypeDefinition tdXml200 infoAllMetadata).2 = []
    ∧ (asReducedTypeDefinition tdXml200 infoAllMetadata).2 ≠ tdXml200.schema.oapiProperties :=
  ⟨rfl, rfl, by decide⟩

theorem Schema.goType_setOapiProperties (s : Schema) (l : List String) :
    (s.setOapiProperties l).goType = s.goType := by
  cases s
  rfl

theorem Schema.properties_setOapiProperties (s : Schema) (l : List String) :
    (s.setOapiProperties l).properties = s.properties := by
  cases s
  rfl

theorem Schema.path_setOapiProperties (s : Schema) (l : List String) :
    (s.setOapiProperties l).path = s.path := by
  cases s
  rfl

theorem Schema.oapiProperties_setOapiProperties (s : Schema) (l : List String) :
    (s.setOapiProperties l).oapiProperties = l := by
  cases s
  rfl

theorem schema_setOapiProperties_self (s : Schema) :
    s.setOapiProperties s.oapiProperties = s := by
  cases s
  rfl

theorem ResponseTypeDefinition.schema_setOapiProperties (td : ResponseTypeDefinition)
    (l : List String) :
    (td.setOapiProperties l).schema = td.schema.setOapiProperties l := rfl

theorem ResponseTypeDefinition.typeName_setOapiProperties (td : ResponseTypeDefinition)
    (l : List String) : (td.setOapiProperties l).typeName = td.typeName := rfl

theorem ResponseTypeDefinition.jsonName_setOapiProperties (td : ResponseTypeDefinition)
    (l : List String) : (td.setOapiProperties l).jsonName = td.jsonName := rfl

theorem ResponseTypeDefinition.responseName_setOapiProperties (td : ResponseTypeDefinition)
    (l : List String) : (td.setOapiProperties l).responseName = td.responseName := rfl

theorem ResponseTypeDefinition.contentTypeName_setOapiProperties
    (td : ResponseTypeDefinition) (l : List String) :
    (td.setOapiProperties l).contentTypeName = td.contentTypeName := rfl

theorem responseTypeDefinition_setOapiProperties_self (td : ResponseTypeDefinition) :
    td.setOapiProperties td.schema.oapiProperties = td := by
  unfold ResponseTypeDefinition.setOapiProperties
  rw [schema_setOapiProperties_self]

theorem getSingleNonMetadataProperty_setOapiProperties (td : ResponseTypeDefinition)
    (l : List String) (info : PrimaryResponseInfo) :
    getSingleNonMetadataProperty (td.setOapiProperties l).toTypeDefinition info =
      getSingleNonMetadataProperty td.toTypeDefinition info := by
  unfold getSingleNonMetadataProperty ResponseTypeDefinition.setOapiProperties
  simp only [Schema.properties_setOapiProperties]

theorem buildUnmarshalCase_setOapiProperties (td : ResponseTypeDefinition)
    (l : List String) (a c : String) :
    buildUnmarshalCase (td.setOapiProperties l) a c = buildUnmarshalCase td a c := rfl

theorem decodeCaseAction_setOapiProperties (codec : String)
    (td : ResponseTypeDefinition) (l : List String) :
    decodeCaseAction codec (td.setOapiProperties l) = decodeCaseAction codec td := by
  unfold decodeCaseAction
  simp only [ResponseTypeDefinition.schema_setOapiProperties,
    ResponseTypeDefinition.typeName_setOapiProperties, Schema.goType_setOapiProperties]

theorem processContentType_setOapiProperties (td : ResponseTypeDefinition)
    (l : List String) :
    processContentType (td.setOapiProperties l) = processContentType td := by
  funext maps ct
  unfold processContentType
  simp only [decodeCaseAction_setOapiProperties, buildUnmarshalCase_setOapiProperties,
    ResponseTypeDefinition.typeName_setOapiProperties,
    ResponseTypeDefinition.contentTypeName_setOapiProperties,
    ResponseTypeDefinition.responseName_setOapiProperties]

theorem processTypeDefinition_setOapiProperties
    (responses : List (String × Option ResponseValue)) (maps : CaseMaps)
    (td : ResponseTypeDefinition) (l : List String) :
    processTypeDefinition responses maps (td.setOapiProperties l) =
      processTypeDefinition responses maps td := by
  unfold processTypeDefinition
  simp only [processContentType_setOapiProperties,
    ResponseTypeDefinition.responseName_setOapiProperties]

theorem buildCaseMaps_mapOapiProperties (op : OperationDefinition)
    (F : ResponseTypeDefinition → List String) :
    buildCaseMaps (op.mapOapiProperties F) = buildCaseMaps op := by
  unfold buildCaseMaps OperationDefinition.mapOapiProperties
  rw [List.foldl_map]
  simp only [processTypeDefinition_setOapiProperties]

theorem genResponseUnmarshal_mapOapiProperties (op : OperationDefinition)
    (F : ResponseTypeDefinition → List String) :
    genResponseUnmarshal (op.mapOapiProperties F) = genResponseUnmarshal op := by
  unfold genResponseUnmarshal
  rw [buildCaseMaps_mapOapiProperties]
  simp only [OperationDefinition.mapOapiProperties, List.length_map]

theorem getPrimaryResponseInfo_mapOapiProperties (op : OperationDefinition)
    (F : ResponseTypeDefinition → List String) :
    getPrimaryResponseInfo (op.mapOapiProperties F) = getPrimaryResponseInfo op := rfl

theorem getPrimaryResponseTypeDefinition_mapOapiProperties (op : OperationDefinition)
    (F : ResponseTypeDefinition → List String) :
    getPrimaryResponseTypeDefinition (op.mapOapiProperties F) =
      Except.map (Option.map (fun td => td.setOapiProperties (F td)))
        (getPrimaryResponseTypeDefinition op) := by
  unfold getPrimaryResponseTypeDefinition
  rw [getPrimaryResponseInfo_mapOapiProperties]
  cases getPrimaryResponseInfo op with
  | error e => rfl
  | ok o =>
      cases o with
      | none => rfl
      | some info =>
          show (match (op.typeDefinitions.map
              (fun td => td.setOapiProperties (F td))).find?
              (fun td => td.responseName == info.statusCode &&
                td.contentTypeName == info.contentType) with
            | some td => Except.ok (some td)
            | none => Except.error msgNoMatch) =
            Except.map (Option.map (fun td => td.setOapiProperties (F td)))
              (match op.typeDefinitions.find?
                  (fun td => td.responseName == info.statusCode &&
                    td.contentTypeName == info.contentType) with
                | some td => Except.ok (some td)
                | none => Except.error msgNoMatch)
          rw [List.find?_map]
          have hp : ((fun td : ResponseTypeDefinition =>
              td.responseName == info.statusCode &&
                td.contentTypeName == info.contentType) ∘
              (fun td => td.setOapiProperties (F td))) =
              (fun td : ResponseTypeDefinition =>
                td.responseName == info.statusCode &&
                  td.contentTypeName == info.contentType) := by
            funext td
            rfl
          rw [hp]
          cases op.typeDefinitions.find?
              (fun td => td.responseName == info.statusCode &&
                td.contentTypeName == info.contentType) with
          | none => rfl
          | some td => rfl

theorem operationId_mapOapiProperties (op : OperationDefinition)
    (F : ResponseTypeDefinition → List String) :
    (op.mapOapiProperties F).operationId = op.operationId := rfl

theorem genReturnTypeName_mapOapiProperties (op : OperationDefinition)
    (F : ResponseTypeDefinition → List String) :
    genReturnTypeName (op.mapOapiProperties F) = genReturnTypeName op := by
  unfold genReturnTypeName
  rw [getPrimaryResponseTypeDefinition_mapOapiProperties,
    getPrimaryResponseInfo_mapOapiProperties, operationId_mapOapiProperties]
  cases getPrimaryResponseTypeDefinition op with
  | error e => rfl
  | ok o =>
      cases o with
      | none => rfl
      | some td =>
          simp only [Except.map, Option.map]
          cases getPrimaryResponseInfo op with
          | error e => rfl
          | ok oi =>
              cases oi with
              | none => rfl
              | some info =>
                  simp only [getSingleNonMetadataProperty_setOapiProperties]

theorem asReducedTypeDefinition_rerun (td : ResponseTypeDefinition)
    (info : PrimaryResponseInfo) :
    asReducedTypeDefinition
      (td.setOapiProperties (asReducedTypeDefinition td info).2) info =
      asReducedTypeDefinition td info := by
  cases h : getSingleNonMetadataProperty td.toTypeDefinition info with
  | some prop =>
      have h2 : (asReducedTypeDefinition td info).2 = td.schema.oapiProperties := by
        unfold asReducedTypeDefinition
        rw [h]
      rw [h2, responseTypeDefinition_setOapiProperties_self]
  | none =>
      have h2 : (asReducedTypeDefinition td info).2 =
          td.schema.oapiProperties.filter
            (fun propName => !(stringSliceContains info.metadataProperties propName)) := by
        unfold asReducedTypeDefinition
        rw [h]
      rw [h2]
      unfold asReducedTypeDefinition
      rw [getSingleNonMetadataProperty_setOapiProperties, h]
      simp only [ResponseTypeDefinition.schema_setOapiProperties,
        ResponseTypeDefinition.typeName_setOapiProperties,
        ResponseTypeDefinition.jsonName_setOapiProperties,
        Schema.oapiProperties_setOapiProperties, Schema.path_setOapiProperties,
        List.filter_filter, Bool.and_self]

/-- C4: a second run of the resolver on the operation model left behind by
a first run produces identical results: the dispatch string and the return
type name are unchanged under any rewriting of the shared openapi3
property maps (the only state a run can mutate), and rerunning the
reduction on the map contents it itself produced returns the same reduced
type definition and the same map contents. -/
theorem claim_c4_idempotent_rerun (op : OperationDefinition)
    (F : ResponseTypeDefinition → List String) (td : ResponseTypeDefinition)
    (info : PrimaryResponseInfo) :
    genResponseUnmarshal (op.mapOapiProperties F) = genResponseUnmarshal op
    ∧ genReturnTypeName (op.mapOapiProperties F) = genReturnTypeName op
    ∧ asReducedTypeDefinition
        (td.setOapiProperties (asReducedTypeDefinition td info).2) info =
        asReducedTypeDefinition td info :=
  ⟨genResponseUnmarshal_mapOapiProperties op F,
    genReturnTypeName_mapOapiProperties op F,
    asReducedTypeDefinition_rerun td info⟩

theorem containsSubstr_of_data (s mid : String) (a b : List Char)
    (h : a ++ mid.data ++ b = s.data) : containsSubstr s mid := ⟨a, b, h⟩

theorem msgNoKey_contains (field : String) : containsSubstr (msgNoKey field) field :=
  containsSubstr_of_data _ _ "no ".data " key in x-primary-response".data
    (by simp [msgNoKey])

theorem msgExpectedString_contains (field : String) (v : JSONValue) :
    containsSubstr (msgExpectedString field v) field :=
  containsSubstr_of_data _ _ "expected string for ".data
    (" in x-primary-response, got ".data ++ (goTypeName v).data)
    (by simp [msgExpectedString])

theorem msgExpectedArray_contains (v : JSONValue) :
    containsSubstr (msgExpectedArray v) "metadata-properties" :=
  containsSubstr_of_data _ _ "expected []interface\x7b\x7d for ".data
    (" in x-primary-response, got ".data ++ (goTypeName v).data)
    (by simp [msgExpectedArray])

theorem msgExpectedStringElem_contains (i : Nat) (v : JSONValue) :
    containsSubstr (msgExpectedStringElem i v) "metadata-properties" :=
  containsSubstr_of_data _ _ "expected string for ".data
    (" element ".data ++ (toString i).data ++ ", got ".data ++ (goTypeName v).data)
    (by simp [msgExpectedStringElem])

theorem parseMetadataProps_error :
    ∀ (props : List JSONValue) (i : Nat) (e : String),
      parseMetadataProps props i = .error e → containsSubstr e "metadata-properties" := by
  intro props
  induction props with
  | nil =>
      intro i e h
      simp [parseMetadataProps] at h
  | cons v rest ih =>
      intro i e h
      cases v with
      | str s =>
          simp only [parseMetadataProps] at h
          cases hr : parseMetadataProps rest (i + 1) with
          | error e2 =>
              rw [hr] at h
              simp only [Except.map] at h
              injection h with h1
              subst h1
              exact ih (i + 1) _ hr
          | ok l =>
              rw [hr] at h
              simp [Except.map] at h
      | num n =>
          simp only [parseMetadataProps] at h
          injection h with h1
          subst h1
          exact msgExpectedStringElem_contains i _
      | bool b =>
          simp only [parseMetadataProps] at h
          injection h with h1
          subst h1
          exact msgExpectedStringElem_contains i _
      | arr l =>
          simp only [parseMetadataProps] at h
          injection h with h1
          subst h1
          exact msgExpectedStringElem_contains i _
      | obj l =>
          simp only [parseMetadataProps] at h
          injection h with h1
          subst h1
          exact msgExpectedStringElem_contains i _
      | null =>
          simp only [parseMetadataProps] at h
          injection h with h1
          subst h1
          exact msgExpectedStringElem_contains i _

theorem parsePrimaryResponseObj_error (m : List (String × JSONValue)) (e : String)
    (h : parsePrimaryResponseObj m = .error e) :
    containsSubstr e "status-code" ∨ containsSubstr e "content-type"
      ∨ containsSubstr e "metadata-properties" := by
  unfold parsePrimaryResponseObj at h
  split at h
  · injection h with h1
    subst h1
    exact .inl (msgNoKey_contains _)
  · split at h
    · injection h with h1
      subst h1
      exact .inr (.inl (msgNoKey_contains _))
    · split at h
      · simp at h
      · split at h
        · injection h with h1
          subst h1
          exact .inr (.inr (parseMetadataProps_error _ _ _ (by assumption)))
        · simp at h
      · injection h with h1
        subst h1
        exact .inr (.inr (msgExpectedArray_contains _))
    · injection h with h1
      subst h1
      exact .inr (.inl (msgExpectedString_contains _ _))
  · injection h with h1
    subst h1
    exact .inl (msgExpectedString_contains _ _)


/-- C9 amended: every fatal error of primary-response processing carries
the offending directive field in its message when the directive shape is
malformed (or is the library unmarshal error for a non-object directive),
and no message depends on the operation identifier: resolution reads only
the extension (and the response type definitions), so the identifier never
appears; the nonexistent-response error is the fixed no-match string that
names neither the operation nor a directive field. -/
theorem claim_c9_error_reporting :
    (∀ op1 op2 : OperationDefinition,
        op1.primaryResponseExt = op2.primaryResponseExt →
        getPrimaryResponseInfo op1 = getPrimaryResponseInfo op2)
    ∧ (∀ op1 op2 : OperationDefinition,
        op1.primaryResponseExt = op2.primaryResponseExt →
        op1.typeDefinitions = op2.typeDefinitions →
        getPrimaryResponseTypeDefinition op1 = getPrimaryResponseTypeDefinition op2)
    ∧ (∀ (op : OperationDefinition) (e : String),
        getPrimaryResponseInfo op = .error e →
        (containsSubstr e "status-code" ∨ containsSubstr e "content-type"
          ∨ containsSubstr e "metadata-properties"
          ∨ ∃ v, e = msgUnmarshalTypeError v))
    ∧ (∀ (op : OperationDefinition) (e : String),
        getPrimaryResponseTypeDefinition op = .error e →
        (getPrimaryResponseInfo op = .error e ∨ e = msgNoMatch))
    ∧ ¬ containsSubstr msgNoMatch "status-code"
    ∧ ¬ containsSubstr msgNoMatch "content-type"
    ∧ ¬ containsSubstr msgNoMatch "metadata-properties" := by
  have h1 : ∀ op1 op2 : OperationDefinition,
      op1.primaryResponseExt = op2.primaryResponseExt →
      getPrimaryResponseInfo op1 = getPrimaryResponseInfo op2 := by
    intro op1 op2 hext
    unfold getPrimaryResponseInfo
    rw [hext]
  refine ⟨h1, ?_, ?_, ?_, by decide, by decide, by decide⟩
  · intro op1 op2 hext htds
    unfold getPrimaryResponseTypeDefinition
    rw [h1 op1 op2 hext, htds]
  · intro op e h
    unfold getPrimaryResponseInfo at h
    split at h
    · simp at h
    · exact Or.elim3 (parsePrimaryResponseObj_error _ _ h)
        (fun hc => .inl hc) (fun hc => .inr (.inl hc)) (fun hc => .inr (.inr (.inl hc)))
    · exact Or.elim3 (parsePrimaryResponseObj_error _ _ h)
        (fun hc => .inl hc) (fun hc => .inr (.inl hc)) (fun hc => .inr (.inr (.inl hc)))
    · injection h with h2
      exact .inr (.inr (.inr ⟨_, h2.symm⟩))
  · intro op e h
    unfold getPrimaryResponseTypeDefinition at h
    split at h
    · injection h with h2
      subst h2
      exact .inl (by assumption)
    · simp at h
    · split at h
      · simp at h
      · injection h with h2
        exact .inr h2.symm

/-- C9 witness: at the operation whose directive lacks a status-code, the
error message names the offending field, and the resolution result is
unchanged when only the operation identifier differs. -/
theorem claim_c9_witness :
    getPrimaryResponseInfo opMissingStatusCode =
      getPrimaryResponseInfo
        { operationId := "otherOperation", typeDefinitions := [],
          responses := [], primaryResponseExt := some (.obj []) }
    ∧ (containsSubstr "no status-code key in x-primary-response" "status-code"
        ∨ containsSubstr "no status-code key in x-primary-response" "content-type"
        ∨ containsSubstr "no status-code key in x-primary-response" "metadata-properties"
        ∨ ∃ v, "no status-code key in x-primary-response" = msgUnmarshalTypeError v) := by
  constructor
  · exact claim_c9_error_reporting.1 opMissingStatusCode _ rfl
  · exact claim_c9_error_reporting.2.2.1 opMissingStatusCode _ rfl

/-- C9 counterexample: the missing-status-code panic message does not
contain the identifier of the operation it was raised for, so fatal
configuration errors are not reported with the operation identifier. -/
theorem claim_c9_counterexample :
    opMissingStatusCode.operationId = "findPets"
    ∧ getPrimaryResponseInfo opMissingStatusCode =
        .error "no status-code key in x-primary-response"
    ∧ ¬ containsSubstr "no status-code key in x-primary-response" "findPets" :=
  ⟨rfl, rfl, by decide⟩

theorem String.eq_of_data_eq : ∀ {a b : String}, a.data = b.data → a = b
  | ⟨_⟩, ⟨_⟩, h => congrArg String.mk h

theorem charListLeb_append_lt (p : List Char) (x y : Char) (u v : List Char)
    (h : x.toNat ≠ y.toNat) :
    charListLeb (p ++ x :: u) (p ++ y :: v) = decide (x.toNat < y.toNat) := by
  induction p with
  | nil => simp [charListLeb, h]
  | cons c p ih => simp [charListLeb, ih]

theorem unhandledCaseKey_exact_eq (n : String) (h1 : n ≠ "default")
    (h2 : n ∉ classPatterns) :
    unhandledCaseKey n = "9case rsp.StatusCode == " ++ n ++ ":" := by
  unfold unhandledCaseKey unhandledCaseClauseKey getConditionOfResponseName
    prefixLeastSpecific
  rw [if_neg h1, if_neg h2]
  apply String.eq_of_data_eq
  simp [String.data_append, List.append_assoc]

theorem unhandledCaseKey_exact_data (n : String) (h1 : n ≠ "default")
    (h2 : n ∉ classPatterns) :
    (unhandledCaseKey n).data =
      "9case rsp.StatusCode ".data ++ '=' :: '=' :: ' ' :: (n.data ++ [':']) := by
  rw [unhandledCaseKey_exact_eq n h1 h2]
  simp [String.data_append, List.append_assoc]

theorem unhandledCaseKey_exact_data_inner (n : String) (h1 : n ≠ "default")
    (h2 : n ∉ classPatterns) :
    (unhandledCaseKey n).data =
      "9case ".data ++ 'r' ::
        ("sp.StatusCode ".data ++ '=' :: '=' :: ' ' :: (n.data ++ [':'])) := by
  rw [unhandledCaseKey_exact_data n h1 h2]
  simp [List.append_assoc]

theorem stringLeb_exact_class (n d : String) (h1 : n ≠ "default")
    (h2 : n ∉ classPatterns) (hd : d ∈ classPatterns) :
    stringLeb (unhandledCaseKey n) (unhandledCaseKey d) = false := by
  unfold stringLeb
  rw [unhandledCaseKey_exact_data n h1 h2]
  fin_cases hd
  · rw [show (unhandledCaseKey "1XX").data =
      "9case rsp.StatusCode ".data ++ '/' :: " 100 == 1:".data from by decide]
    rw [charListLeb_append_lt _ _ _ _ _ (by decide)]
    decide
  · rw [show (unhandledCaseKey "2XX").data =
      "9case rsp.StatusCode ".data ++ '/' :: " 100 == 2:".data from by decide]
    rw [charListLeb_append_lt _ _ _ _ _ (by decide)]
    decide
  · rw [show (unhandledCaseKey "3XX").data =
      "9case rsp.StatusCode ".data ++ '/' :: " 100 == 3:".data from by decide]
    rw [charListLeb_append_lt _ _ _ _ _ (by decide)]
    decide
  · rw [show (unhandledCaseKey "4XX").data =
      "9case rsp.StatusCode ".data ++ '/' :: " 100 == 4:".data from by decide]
    rw [charListLeb_append_lt _ _ _ _ _ (by decide)]
    decide
  · rw [show (unhandledCaseKey "5XX").data =
      "9case rsp.StatusCode ".data ++ '/' :: " 100 == 5:".data from by decide]
    rw [charListLeb_append_lt _ _ _ _ _ (by decide)]
    decide

theorem stringLeb_default_nondefault (n : String) (h1 : n ≠ "default") :
    stringLeb (unhandledCaseKey "default") (unhandledCaseKey n) = false := by
  by_cases h2 : n ∈ classPatterns
  · fin_cases h2 <;> decide
  · unfold stringLeb
    rw [unhandledCaseKey_exact_data_inner n h1 h2]
    rw [show (unhandledCaseKey "default").data =
      "9case ".data ++ 't' :: "rue:".data from by decide]
    rw [charListLeb_append_lt _ _ _ _ _ (by decide)]
    decide

/-- C1 amended: in the emitted dispatch sequence, every handled decode
case precedes every unhandled stub case; within the unhandled group the
keys order class-wildcard conditions before exact-status conditions, and
every non-default condition before the default catch-all.  The claimed
global exact-before-wildcard order does not hold (see the
counterexample). -/
theorem claim_c1_amended_order (op : OperationDefinition) :
    (∀ c1 c2 : String, c1 ∈ sortedClauses (buildCaseMaps op).handled →
      c2 ∈ sortedClauses (buildCaseMaps op).unhandled →
      [c1, c2].Sublist (orderedCaseClauses op))
    ∧ (∀ d n : String, d ∈ classPatterns → n ∉ classPatterns → n ≠ "default" →
        unhandledCaseKey d ∈ mapKeys (buildCaseMaps op).unhandled →
        unhandledCaseKey n ∈ mapKeys (buildCaseMaps op).unhandled →
        [unhandledCaseKey d, unhandledCaseKey n].Sublist
          (SortedStringKeys (buildCaseMaps op).unhandled))
    ∧ (∀ n : String, n ≠ "default" →
        unhandledCaseKey n ∈ mapKeys (buildCaseMaps op).unhandled →
        unhandledCaseKey "default" ∈ mapKeys (buildCaseMaps op).unhandled →
        [unhandledCaseKey n, unhandledCaseKey "default"].Sublist
          (SortedStringKeys (buildCaseMaps op).unhandled)) := by
  have hsorted : (SortedStringKeys (buildCaseMaps op).unhandled).Sorted stringLe :=
    List.sorted_insertionSort stringLe _
  have hmem : ∀ k : String, k ∈ mapKeys (buildCaseMaps op).unhandled →
      k ∈ SortedStringKeys (buildCaseMaps op).unhandled := by
    intro k hk
    exact (List.perm_insertionSort stringLe _).mem_iff.mpr hk
  refine ⟨?_, ?_, ?_⟩
  · intro c1 c2 h1 h2
    unfold orderedCaseClauses
    exact List.Sublist.append (List.singleton_sublist.mpr h1)
      (List.singleton_sublist.mpr h2)
  · intro d n hd hn1 hn2 hkd hkn
    exact sorted_pair_sublist hsorted (hmem _ hkd) (hmem _ hkn)
      (stringLeb_exact_class n d hn2 hn1 hd)
  · intro n hn hkn hkd
    exact sorted_pair_sublist hsorted (hmem _ hkn) (hmem _ hkd)
      (stringLeb_default_nondefault n hn)

set_option maxRecDepth 4000 in
/-- C1 amended witness: at the operation with a handled JSON 200 case and
unhandled 404, 4XX and default cases, the handled clause precedes the
stubs, the 4XX key precedes the 404 key, and the 404 key precedes the
default key. -/
theorem claim_c1_amended_witness :
    ["case strings.Contains(rsp.Header.Get(\"Content-Type\"), \"json\") && rsp.StatusCode == 200:\nvar dest TA\nif err := json.Unmarshal(bodyBytes, &dest); err != nil \x7b \n return nil, err \n\x7d\nresponse.A200 = &dest\n",
      "case rsp.StatusCode / 100 == 4:\nbreak // No content-type\n"].Sublist
        (orderedCaseClauses opAllTiers)
    ∧ [unhandledCaseKey "4XX", unhandledCaseKey "404"].Sublist
        (SortedStringKeys (buildCaseMaps opAllTiers).unhandled)
    ∧ [unhandledCaseKey "404", unhandledCaseKey "default"].Sublist
        (SortedStringKeys (buildCaseMaps opAllTiers).unhandled) := by
  refine ⟨?_, ?_, ?_⟩
  · exact (claim_c1_amended_order opAllTiers).1 _ _ (by decide) (by decide)
  · exact (claim_c1_amended_order opAllTiers).2.1 "4XX" "404" (by decide) (by decide)
      (by decide) (by decide) (by decide)
  · exact (claim_c1_amended_order opAllTiers).2.2 "404" (by decide) (by decide) (by decide)

set_option maxRecDepth 4000 in
/-- C1 counterexample: for the operation declaring a no-content 404 and a
no-content 4XX, genResponseUnmarshal emits the class-wildcard case before
the exact-status case, so the dispatch sequence does not list every
exact-status case before every class-wildcard case. -/
theorem claim_c1_counterexample :
    orderedCaseClauses opExactVsClass =
      ["case rsp.StatusCode / 100 == 4:\nbreak // No content-type\n",
        "case rsp.StatusCode == 404:\nbreak // No content-type\n"]
    ∧ genResponseUnmarshal opExactVsClass =
      "switch \x7b\ncase rsp.StatusCode / 100 == 4:\nbreak // No content-type\n\ncase rsp.StatusCode == 404:\nbreak // No content-type\n\n\x7d\n" :=
  ⟨by decide, by decide⟩

theorem mapKeys_mapSet_nodup (m : List (String × String)) (k v : String)
    (h : (mapKeys m).Nodup) : (mapKeys (mapSet m k v)).Nodup := by
  unfold mapKeys at h ⊢
  unfold mapSet
  rw [List.map_append]
  apply List.Nodup.append
  · exact ((List.filter_sublist m).map (fun p : String × String => p.1)).nodup h
  · exact List.nodup_singleton k
  · intro a ha hb
    simp only [List.map_cons, List.map_nil, List.mem_singleton] at hb
    subst hb
    rw [List.mem_map] at ha
    rcases ha with ⟨p, hp, hpk⟩
    rw [List.mem_filter] at hp
    rw [hpk] at hp
    simp at hp

theorem caseMaps_nodup_addUnhandledStub (m : List (String × String)) (n a : String)
    (h : (mapKeys m).Nodup) : (mapKeys (addUnhandledStub m n a)).Nodup := by
  unfold addUnhandledStub
  exact mapKeys_mapSet_nodup _ _ _ h

theorem caseMaps_nodup_processContentType (td : ResponseTypeDefinition)
    (maps : CaseMaps) (ct : String)
    (h1 : (mapKeys maps.handled).Nodup) (h2 : (mapKeys maps.unhandled).Nodup) :
    (mapKeys (processContentType td maps ct).handled).Nodup
    ∧ (mapKeys (processContentType td maps ct).unhandled).Nodup := by
  unfold processContentType
  split
  · exact ⟨h1, h2⟩
  · split
    · split
      · exact ⟨mapKeys_mapSet_nodup _ _ _ h1, h2⟩
      · exact ⟨h1, h2⟩
    · split
      · exact ⟨mapKeys_mapSet_nodup _ _ _ h1, h2⟩
      · exact ⟨h1, h2⟩
    · split
      · exact ⟨mapKeys_mapSet_nodup _ _ _ h1, h2⟩
      · exact ⟨h1, h2⟩
    · exact ⟨h1, caseMaps_nodup_addUnhandledStub _ _ _ h2⟩

theorem caseMaps_nodup_foldl_processContentType (td : ResponseTypeDefinition) :
    ∀ (cts : List String) (maps : CaseMaps),
      (mapKeys maps.handled).Nodup → (mapKeys maps.unhandled).Nodup →
      (mapKeys ((cts.foldl (processContentType td) maps)).handled).Nodup
      ∧ (mapKeys ((cts.foldl (processContentType td) maps)).unhandled).Nodup
  | [], maps, h1, h2 => ⟨h1, h2⟩
  | ct :: cts, maps, h1, h2 => by
      rw [List.foldl_cons]
      have h3 := caseMaps_nodup_processContentType td maps ct h1 h2
      exact caseMaps_nodup_foldl_processContentType td cts _ h3.1 h3.2

theorem caseMaps_nodup_processTypeDefinition
    (responses : List (String × Option ResponseValue)) (maps : CaseMaps)
    (td : ResponseTypeDefinition)
    (h1 : (mapKeys maps.handled).Nodup) (h2 : (mapKeys maps.unhandled).Nodup) :
    (mapKeys (processTypeDefinition responses maps td).handled).Nodup
    ∧ (mapKeys (processTypeDefinition responses maps td).unhandled).Nodup := by
  unfold processTypeDefinition
  split
  · exact ⟨h1, h2⟩
  · exact ⟨h1, h2⟩
  · split
    · exact ⟨h1, caseMaps_nodup_addUnhandledStub _ _ _ h2⟩
    · exact caseMaps_nodup_foldl_processContentType td _ maps h1 h2

theorem caseMaps_nodup_foldl_processTypeDefinition
    (responses : List (String × Option ResponseValue)) :
    ∀ (tds : List ResponseTypeDefinition) (maps : CaseMaps),
      (mapKeys maps.handled).Nodup → (mapKeys maps.unhandled).Nodup →
      (mapKeys ((tds.foldl (processTypeDefinition responses) maps)).handled).Nodup
      ∧ (mapKeys ((tds.foldl (processTypeDefinition responses) maps)).unhandled).Nodup
  | [], maps, h1, h2 => ⟨h1, h2⟩
  | td :: tds, maps, h1, h2 => by
      rw [List.foldl_cons]
      have h3 := caseMaps_nodup_processTypeDefinition responses maps td h1 h2
      exact caseMaps_nodup_foldl_processTypeDefinition responses tds _ h3.1 h3.2

/-- C10: the unhandled group holds at most one stub entry per response
name: its map keys are free of duplicates, the no-content stub and the
unsupported-content-type stubs of one response name use the same key
(least-specific prefix plus that name's status condition), and when a
response declares several unrecognised content types the entries overwrite
one another in sorted content-type order so that only the last comment
survives. -/
theorem claim_c10_stub_overwrite :
    (∀ op : OperationDefinition,
      (mapKeys (buildCaseMaps op).handled).Nodup
      ∧ (mapKeys (buildCaseMaps op).unhandled).Nodup)
    ∧ (buildCaseMaps opTwoUnrecognized).unhandled =
        [(unhandledCaseKey "200",
          unhandledCaseClauseKey "200" ++ "\n" ++
            "// Content-type (application/pdf) unsupported" ++ "\n")]
    ∧ (buildCaseMaps opNoContent200).unhandled =
        [(unhandledCaseKey "200",
          unhandledCaseClauseKey "200" ++ "\n" ++ "break // No content-type" ++ "\n")]
    ∧ genResponseUnmarshal opTwoUnrecognized =
        "switch \x7b\ncase rsp.StatusCode == 200:\n// Content-type (application/pdf) unsupported\n\n\x7d\n" := by
  refine ⟨?_, by decide, by decide, by decide⟩
  intro op
  unfold buildCaseMaps
  exact caseMaps_nodup_foldl_processTypeDefinition op.responses op.typeDefinitions
    ⟨[], []⟩ List.nodup_nil List.nodup_nil
